import Mathlib

/-!
Shallow embedding of the stock-chart pipeline in `app.py`:
date utilities (`validate_date`, `to_date` built on Python's
`datetime.strptime` with format "%Y-%m-%d"), the granularity maps
(`function_for`, `series_key_for`), the series normalizer
(`parse_close_series`), the range filter (`filter_range`), the label
thinner (`thin_labels`), the document assembler (`wrap_html`), and the
pre-fetch validation prefix of `main`.

Conventions: Python exceptions and `sys.exit` become an explicit error
type `PyErr` in `Except`; JSON values decoded by `requests.json()`
become the inductive `JVal`; Python `float` objects are modelled as
exact values (`PyFloat`) since the program never does arithmetic on
them; strings are treated as ASCII (the program's date strings,
granularities and chart kinds are all ASCII).
-/

/-- Calendar date as produced by `datetime.strptime(s, "%Y-%m-%d").date()`.
The parsed datetimes always carry a midnight time component, so the
date triple is the whole information content. -/
structure PyDate where
  year : Nat
  month : Nat
  day : Nat
deriving DecidableEq, Repr

/-- Python exceptions (and `sys.exit`) that the embedded code can signal. -/
inductive PyErr where
  | valueError
  | typeError
  | attributeError
  | systemExit (code : Nat)
deriving DecidableEq, Repr

/-- Numeric value of an ASCII digit character. -/
def dval (c : Char) : Nat := c.toNat - 48

/-- Leap-year rule of the proleptic Gregorian calendar used by
`datetime.date`. -/
def isLeap (y : Nat) : Bool := y % 4 == 0 && (y % 100 != 0 || y % 400 == 0)

/-- Number of days in a month, as enforced by the `datetime.date`
constructor. -/
def daysInMonth (y m : Nat) : Nat :=
  if m = 2 then (if isLeap y then 29 else 28)
  else if m = 4 ∨ m = 6 ∨ m = 9 ∨ m = 11 then 30
  else 31

/-- Month parser of CPython `_strptime` for the directive `%m` followed by
the literal hyphen of the format "%Y-%m-%d": the regex fragment is
`(1[0-2]|0[1-9]|[1-9])\-`.  Two-digit alternatives are tried first; when
the first two characters are digits, the one-digit alternative cannot
rescue a failed two-digit match because the following literal hyphen
would have to equal the second digit.  Returns the month value and the
characters after the hyphen. -/
def parseMonthDash : List Char → Option (Nat × List Char)
  | a :: b :: rest =>
    if a.isDigit then
      if b.isDigit then
        let v := 10 * dval a + dval b
        if 1 ≤ v ∧ v ≤ 12 then
          match rest with
          | '-' :: rest2 => some (v, rest2)
          | _ => none
        else none
      else if b = '-' then
        if 1 ≤ dval a then some (dval a, rest) else none
      else none
    else none
  | _ => none

/-- Day parser of CPython `_strptime` for the trailing directive `%d`:
regex fragment `(3[01]|[12]\d|0[1-9]|[1-9])` followed by the
"unconverted data remains" check, so the whole remaining input must be
consumed.  The two-digit alternatives accept exactly the values 1..31;
a one-digit match that leaves input behind is rejected by the leftover
check. -/
def parseDayEnd : List Char → Option Nat
  | [a] => if a.isDigit && 1 ≤ dval a then some (dval a) else none
  | [a, b] =>
    if a.isDigit && b.isDigit then
      let v := 10 * dval a + dval b
      if 1 ≤ v ∧ v ≤ 31 then some v else none
    else none
  | _ => none

/-- Embedding of `datetime.strptime(s, "%Y-%m-%d")` (restricted to ASCII
digits): `%Y` matches exactly four digits, then the literal hyphen, then
`%m`, hyphen, `%d`; finally the `datetime` constructor checks
`MINYEAR <= year` and that the day exists in the month.  `none` models a
raised `ValueError`. -/
def strptimeYMD (s : String) : Option PyDate :=
  match s.data with
  | c1 :: c2 :: c3 :: c4 :: '-' :: rest =>
    if c1.isDigit && c2.isDigit && c3.isDigit && c4.isDigit then
      let y := 1000 * dval c1 + 100 * dval c2 + 10 * dval c3 + dval c4
      match parseMonthDash rest with
      | some (m, rest2) =>
        match parseDayEnd rest2 with
        | some d =>
          if 1 ≤ y ∧ 1 ≤ d ∧ d ≤ daysInMonth y m then some ⟨y, m, d⟩ else none
        | none => none
      | none => none
    else none
  | _ => none

/-- Embedding of `validate_date` from `app.py`: true iff
`datetime.strptime(s, "%Y-%m-%d")` does not raise. -/
def validate_date (s : String) : Bool := (strptimeYMD s).isSome

/-- Embedding of `to_date` from `app.py`: the parsed calendar date, or
`none` when `strptime` raises `ValueError`. -/
def to_date (s : String) : Option PyDate := strptimeYMD s

/-- Python `float` values as stored in the series rows.  The program
never computes with them, so exact values stand in for IEEE doubles. -/
inductive PyFloat where
  | finite (q : ℚ)
  | inf (neg : Bool)
  | nan
deriving DecidableEq, Repr

/-- Characters stripped by Python `float(str)` around the literal. -/
def isPySpace (c : Char) : Bool := c = ' ' || c = '\t' || c = '\n' || c = '\r'

/-- Value of a digit string, most significant first. -/
def digitsToNat (l : List Char) : Nat := l.foldl (fun a c => 10 * a + dval c) 0

/-- Exponent suffix of a float literal: all remaining characters must be
digits (at least one). -/
def expDigits (base : ℚ) (l : List Char) (neg : Bool) : Option ℚ :=
  if l.isEmpty || !(l.all Char.isDigit) then none
  else some (if neg then base / 10 ^ digitsToNat l else base * 10 ^ digitsToNat l)

/-- Optional `e`/`E` exponent part of a float literal. -/
def parseExpPart (base : ℚ) : List Char → Option ℚ
  | [] => some base
  | e :: rest =>
    if e = 'e' ∨ e = 'E' then
      match rest with
      | '+' :: rest2 => expDigits base rest2 false
      | '-' :: rest2 => expDigits base rest2 true
      | _ => expDigits base rest false
    else none

/-- Unsigned decimal float literal: `d+ [. d*] | . d+`, optionally
followed by an exponent. -/
def parseUnsignedFloat (l : List Char) : Option ℚ :=
  let ip := l.takeWhile Char.isDigit
  let rest := l.dropWhile Char.isDigit
  match rest with
  | '.' :: rest2 =>
    let fp := rest2.takeWhile Char.isDigit
    let rest3 := rest2.dropWhile Char.isDigit
    if ip.isEmpty && fp.isEmpty then none
    else parseExpPart ((digitsToNat ip : ℚ) + (digitsToNat fp : ℚ) / 10 ^ fp.length) rest3
  | _ =>
    if ip.isEmpty then none else parseExpPart (digitsToNat ip) rest

/-- Sign-stripped body of a float literal: `inf`, `infinity`, `nan`
(case-insensitive) or a decimal literal. -/
def parseFloatBody (l : List Char) (neg : Bool) : Option PyFloat :=
  let low := l.map Char.toLower
  if low = "inf".data ∨ low = "infinity".data then some (.inf neg)
  else if low = "nan".data then some .nan
  else
    match parseUnsignedFloat l with
    | some q => some (.finite (if neg then -q else q))
    | none => none

/-- Embedding of Python `float(s)` on strings (ASCII, without the digit
underscore-grouping extension, which the API's price strings never
use): surrounding whitespace stripped, optional sign, then `inf`,
`infinity`, `nan` or a decimal literal.  `none` models `ValueError`. -/
def pyFloatOfString (s : String) : Option PyFloat :=
  let l := ((s.data.dropWhile isPySpace).reverse.dropWhile isPySpace).reverse
  match l with
  | '+' :: rest => parseFloatBody rest false
  | '-' :: rest => parseFloatBody rest true
  | rest => parseFloatBody rest false

/-- JSON values as decoded by `requests.Response.json()` into Python
objects: `null` becomes `None`, objects become dicts (insertion-ordered
association lists with unique keys), numbers become ints/floats. -/
inductive JVal where
  | null
  | bool (b : Bool)
  | num (q : ℚ)
  | str (s : String)
  | arr (elems : List JVal)
  | obj (fields : List (String × JVal))

/-- Dict lookup (`d[k]` / `d.get(k)`) on the association-list model. -/
def jLookup (fields : List (String × JVal)) (k : String) : Option JVal :=
  (fields.find? (fun kv => kv.1 == k)).map (fun kv => kv.2)

/-- Embedding of Python `float(x)` on an arbitrary decoded JSON value:
strings are parsed (`ValueError` on failure), numbers and bools convert,
anything else raises `TypeError`. -/
def pyFloatJV : JVal → Except PyErr PyFloat
  | .str s =>
    match pyFloatOfString s with
    | some f => .ok f
    | none => .error .valueError
  | .num q => .ok (.finite q)
  | .bool b => .ok (.finite (if b then 1 else 0))
  | _ => .error .typeError

/-- Embedding of `function_for` from `app.py`; the `raise ValueError`
branch becomes `Except.error`. -/
def function_for (ts : String) : Except PyErr String :=
  if ts = "DAILY" then .ok "TIME_SERIES_DAILY"
  else if ts = "WEEKLY" then .ok "TIME_SERIES_WEEKLY"
  else if ts = "MONTHLY" then .ok "TIME_SERIES_MONTHLY"
  else .error .valueError

/-- Embedding of `series_key_for` from `app.py`. -/
def series_key_for (fn : String) : Except PyErr String :=
  if fn = "TIME_SERIES_DAILY" then .ok "Time Series (Daily)"
  else if fn = "TIME_SERIES_WEEKLY" then .ok "Weekly Time Series"
  else if fn = "TIME_SERIES_MONTHLY" then .ok "Monthly Time Series"
  else .error .valueError

/-- One point of the normalized series: parsed date and close price. -/
abbrev Row := PyDate × PyFloat

/-- Date comparison `a <= b` as used by sorting and filtering. -/
def dateLeB (a b : PyDate) : Bool :=
  if a.year ≠ b.year then decide (a.year < b.year)
  else if a.month ≠ b.month then decide (a.month < b.month)
  else decide (a.day ≤ b.day)

/-- Ordering of rows by date, the key `lambda x: x[0]` of the sort in
`parse_close_series`. -/
def rowLe (a b : Row) : Prop := dateLeB a.1 b.1 = true

instance : DecidableRel rowLe := fun a b =>
  inferInstanceAs (Decidable (dateLeB a.1 b.1 = true))

/-- Loop body of `parse_close_series` over the per-day items, in dict
iteration (insertion) order: parse the date key (`ValueError`
propagates), fetch `"4. close"` via `.get` (`AttributeError` if the
record is not a dict; absent or `None` values are skipped), convert with
`float` (`ValueError` is caught and the entry dropped; `TypeError`
propagates). -/
def collectRows : List (String × JVal) → Except PyErr (List Row)
  | [] => .ok []
  | (k, v) :: rest =>
    match strptimeYMD k with
    | none => .error .valueError
    | some d =>
      match v with
      | .obj fields =>
        match jLookup fields "4. close" with
        | none => collectRows rest
        | some .null => collectRows rest
        | some jv =>
          match pyFloatJV jv with
          | .ok f =>
            match collectRows rest with
            | .ok rs => .ok ((d, f) :: rs)
            | .error e => .error e
          | .error .valueError => collectRows rest
          | .error e => .error e
      | _ => .error .attributeError

/-- Embedding of `parse_close_series` from `app.py`: resolve the
top-level key for the provider function, abort (`sys.exit(1)`) when it
is absent, iterate the per-day records, and return the rows sorted
ascending by date (`list.sort` is stable; insertion sort matches its
input-output behaviour on the date key). -/
def parse_close_series (data : List (String × JVal)) (fn : String) :
    Except PyErr (List Row) :=
  match series_key_for fn with
  | .error e => .error e
  | .ok key =>
    match jLookup data key with
    | none => .error (.systemExit 1)
    | some (.obj items) =>
      match collectRows items with
      | .ok rows => .ok (List.insertionSort rowLe rows)
      | .error e => .error e
    | some _ => .error .attributeError

/-- Embedding of `filter_range` from `app.py`: keep rows whose date lies
in the inclusive interval (the stored datetimes carry midnight times, so
`ts.date()` is the stored date). -/
def filter_range (rows : List Row) (start_d end_d : PyDate) : List Row :=
  rows.filter (fun r => dateLeB start_d r.1 && dateLeB r.1 end_d)

/-- Embedding of `thin_labels` from `app.py` (source default
`max_labels=12`).  Labels are optional strings, `none` being Python
`None`, the no-label placeholder. -/
def thin_labels (labels : List (Option String)) (max_labels : Nat) :
    List (Option String) :=
  let n := labels.length
  if n ≤ max_labels then labels
  else
    let step := max 1 (n / max_labels)
    labels.enum.map (fun il => if il.1 % step = 0 ∨ il.1 = n - 1 then il.2 else none)

/-- Python string `<`: lexicographic comparison of code points. -/
def charsLtB : List Char → List Char → Bool
  | [], [] => false
  | [], _ :: _ => true
  | _ :: _, [] => false
  | a :: as, b :: bs => if a < b then true else if b < a then false else charsLtB as bs

/-- Python `str.upper()` (the program only feeds it ASCII). -/
def pyUpper (s : String) : String := ⟨s.data.map Char.toUpper⟩

/-- Python `str.lower()` (the program only feeds it ASCII). -/
def pyLower (s : String) : String := ⟨s.data.map Char.toLower⟩

/-- Outcome of the validation prefix of `main` in `app.py`, up to the
first network access. -/
inductive MainStage where
  | invalidDateFormat
  | badDateOrder
  | badChartType
  | badTimeSeries
  | genericError (e : PyErr)
  | fetch (symbol fn : String)
deriving DecidableEq, Repr

/-- Embedding of `main` from `app.py` from the prompts down to the call
`fetch_data(stock_symbol, fn)`, on the five raw input strings.  The
date-order guard compares the two raw strings with Python string `>`
(lexicographic by code point), not parsed dates.  A `ValueError` from
`function_for` would be caught by the surrounding `except` clause
(`genericError`). -/
def main_pre_fetch (stock_symbol chart_type time_series start_date end_date :
    String) : MainStage :=
  let symbol := pyUpper stock_symbol
  let ct := pyLower chart_type
  let ts := pyUpper time_series
  if !(validate_date start_date && validate_date end_date) then .invalidDateFormat
  else if charsLtB end_date.data start_date.data then .badDateOrder
  else if ct ∉ (["line", "bar"] : List String) then .badChartType
  else if ts ∉ (["DAILY", "WEEKLY", "MONTHLY"] : List String) then .badTimeSeries
  else
    match function_for ts with
    | .ok fn => .fetch symbol fn
    | .error e => .genericError e

/-- True exactly on the outcome that performs the network call. -/
def reachesFetch : MainStage → Bool
  | .fetch _ _ => true
  | _ => false

/-- Element node of the document tree built with `lxml.etree`: tag,
attributes, text content, child elements. -/
inductive XNode where
  | elem (tag : String) (attrs : List (String × String)) (text : Option String)
      (children : List XNode)

mutual
/-- Number of nodes satisfying `p` in a tree. -/
def countNodes (p : XNode → Bool) : XNode → Nat
  | .elem t a tx children => (if p (.elem t a tx children) then 1 else 0) + countForest p children
/-- Number of nodes satisfying `p` in a forest. -/
def countForest (p : XNode → Bool) : List XNode → Nat
  | [] => 0
  | c :: cs => countNodes p c + countForest p cs
end

/-- Node predicate: has the given tag. -/
def isTagB (t : String) (n : XNode) : Bool :=
  match n with
  | .elem tag _ _ _ => tag == t

/-- Node predicate: is an `h1` heading with exactly the given text. -/
def isH1TitleB (title : String) (n : XNode) : Bool :=
  match n with
  | .elem tag _ tx _ => tag == "h1" && tx == some title

/-- Node predicate: is a `pre` block with exactly the given text. -/
def isPreTextB (txt : String) (n : XNode) : Bool :=
  match n with
  | .elem tag _ tx _ => tag == "pre" && tx == some txt

/-- Embedding of `wrap_html` from `app.py`, parameterized by the external
XML parser `etree.fromstring` (`Except.error` carries the stringified
exception `e`).  Builds head (meta charset, title, inline style) and
body (an `h1` with the page title and a `div class="chart"`); the parsed
SVG is appended as the div's child, and on a parse failure a `pre` child
holds the error note followed by the raw SVG text.  Total: the `except`
clause means the Python function never raises here. -/
def wrap_html (fromstring : String → Except String XNode)
    (svg_text page_title : String) : XNode :=
  let headE : XNode :=
    .elem "head" [] none
      [ .elem "meta" [("charset", "utf-8")] none []
      , .elem "title" [] (some page_title) []
      , .elem "style" []
          (some "body\x7bfont-family:Arial,Helvetica,sans-serif;margin:24px;\x7d .chart\x7bmax-width:1000px;\x7d") [] ]
  let chartChildren : List XNode :=
    match fromstring svg_text with
    | .ok svgEl => [svgEl]
    | .error e =>
      [ .elem "pre" [] (some ("(SVG embed error: " ++ e ++ ")\n\n" ++ svg_text)) [] ]
  let chart_div : XNode := .elem "div" [("class", "chart")] none chartChildren
  let bodyE : XNode :=
    .elem "body" [] none [ .elem "h1" [] (some page_title) [], chart_div ]
  .elem "html" [] none [headE, bodyE]

/-- Transcription of the spec's own description of the accepted date
format, for comparison with `validate_date`: exactly a 4-digit year,
2-digit month and 2-digit day, hyphen-separated, denoting a possible
calendar date. -/
def specExactYMDFormat (s : String) : Bool :=
  match s.data with
  | [y1, y2, y3, y4, '-', m1, m2, '-', d1, d2] =>
    y1.isDigit && y2.isDigit && y3.isDigit && y4.isDigit &&
    m1.isDigit && m2.isDigit && d1.isDigit && d2.isDigit &&
    (let y := 1000 * dval y1 + 100 * dval y2 + 10 * dval y3 + dval y4
     let m := 10 * dval m1 + dval m2
     let d := 10 * dval d1 + dval d2
     decide (1 ≤ m) && decide (m ≤ 12) && decide (1 ≤ d) && decide (d ≤ daysInMonth y m))
  | _ => false

/-- Characterization of the strings `validate_date` actually accepts:
4-digit year with value at least 1, then a 1-or-2-digit month valued
1..12, then a 1-or-2-digit day that exists in that month, all three
hyphen-separated. -/
def acceptedYMD (s : String) : Prop :=
  ∃ ych mch dch : List Char,
    s.data = ych ++ '-' :: (mch ++ '-' :: dch) ∧
    ych.length = 4 ∧ (∀ c ∈ ych, c.isDigit = true) ∧
    (mch.length = 1 ∨ mch.length = 2) ∧ (∀ c ∈ mch, c.isDigit = true) ∧
    (dch.length = 1 ∨ dch.length = 2) ∧ (∀ c ∈ dch, c.isDigit = true) ∧
    1 ≤ digitsToNat ych ∧
    1 ≤ digitsToNat mch ∧ digitsToNat mch ≤ 12 ∧
    1 ≤ digitsToNat dch ∧
    digitsToNat dch ≤ daysInMonth (digitsToNat ych) (digitsToNat mch)

/-- Two zero-padded decimal digits. -/
def pad2 (n : Nat) : List Char := [Nat.digitChar (n / 10 % 10), Nat.digitChar (n % 10)]

/-- Four zero-padded decimal digits. -/
def pad4 (n : Nat) : List Char :=
  [Nat.digitChar (n / 1000 % 10), Nat.digitChar (n / 100 % 10),
   Nat.digitChar (n / 10 % 10), Nat.digitChar (n % 10)]

/-- Canonical `YYYY-MM-DD` rendering of a date triple. -/
def ymdString (y m d : Nat) : String := ⟨pad4 y ++ '-' :: (pad2 m ++ '-' :: pad2 d)⟩

/-- Result of one per-day entry of the raw response in the normalizer:
`some` row when the date key parses and the close field is a present,
convertible string or number, `none` when the entry is dropped or would
error. -/
def rowOf (kv : String × JVal) : Option Row :=
  match strptimeYMD kv.1, kv.2 with
  | some d, .obj fields =>
    (match jLookup fields "4. close" with
     | none => none
     | some .null => none
     | some jv =>
       match pyFloatJV jv with
       | .ok f => some (d, f)
       | .error _ => none)
  | _, _ => none

/-- Close-field shapes that the normalizer's loop tolerates without an
uncaught exception: absent, `None`, a string, a number, or a bool. -/
def closeOKB : Option JVal → Bool
  | none => true
  | some .null => true
  | some (.str _) => true
  | some (.num _) => true
  | some (.bool _) => true
  | _ => false

/-- Per-day entries that the normalizer's loop processes without an
uncaught exception: parseable date key, dict record, tolerated close. -/
def entryOKB (kv : String × JVal) : Bool :=
  (strptimeYMD kv.1).isSome &&
  (match kv.2 with
   | .obj fields => closeOKB (jLookup fields "4. close")
   | _ => false)

/-- Per-day entries that the normalizer's loop drops silently: the close
field is absent, `None`, or a string that `float` rejects.  These are
the "missing or non-numeric" closes of the spec, restricted to the
shapes the code actually tolerates. -/
def closeDroppedB (kv : String × JVal) : Bool :=
  match kv.2 with
  | .obj fields =>
    match jLookup fields "4. close" with
    | none => true
    | some .null => true
    | some (.str s) => (pyFloatOfString s).isNone
    | _ => false
  | _ => false

/-- Raw response with out-of-order dates, for exercising the sort. -/
def c1Data : List (String × JVal) :=
  [("Time Series (Daily)", .obj
     [ ("2020-01-03", .obj [("4. close", .num 103)])
     , ("2020-01-01", .obj [("4. close", .num 101)]) ])]

/-- Expected normalized series for `c1Data`. -/
def c1Rows : List Row :=
  [ (⟨2020, 1, 1⟩, .finite 101), (⟨2020, 1, 3⟩, .finite 103) ]

/-- Per-day items mixing a good close, a missing close, a non-numeric
close string and a `null` close. -/
def c2Items : List (String × JVal) :=
  [ ("2020-01-03", .obj [("4. close", .str "103.25")])
  , ("2020-01-01", .obj [("4. close", .str "101.5")])
  , ("2020-01-02", .obj [("1. open", .str "99.0")])
  , ("2020-01-04", .obj [("4. close", .str "n/a")])
  , ("2020-01-05", .obj [("4. close", .null)]) ]

/-- Raw response wrapping `c2Items` under the daily key. -/
def c2Data : List (String × JVal) := [("Time Series (Daily)", .obj c2Items)]

/-- Raw response whose close field is a JSON array: `float` raises
`TypeError`, which the loop does not catch. -/
def c2BadData : List (String × JVal) :=
  [("Time Series (Daily)", .obj [("2020-01-02", .obj [("4. close", .arr [])])])]

/-- Raw response whose close field is a nested JSON object. -/
def c10Data : List (String × JVal) :=
  [("Time Series (Daily)", .obj [("2020-01-02", .obj [("4. close", .obj [])])])]

/-- Stand-in for `etree.fromstring` that succeeds with a bare svg node. -/
def fromstringOk : String → Except String XNode :=
  fun _ => .ok (.elem "svg" [] none [])

/-- Stand-in for `etree.fromstring` that fails with a fixed message. -/
def fromstringErr : String → Except String XNode := fun _ => .error "bad"

example : validate_date "2020-01-01" = true := by decide
example : validate_date "2020-13-01" = false := by decide
example : validate_date "2020-02-30" = false := by decide
example : validate_date "2020-02-29" = true := by decide
example : validate_date "2019-02-29" = false := by decide
example : validate_date "0000-01-01" = false := by decide
example : validate_date "2020/01/01" = false := by decide
example : validate_date "2020-01-011" = false := by decide

/-- Unfolding of the date comparison into arithmetic on the fields. -/
theorem dateLeB_iff (a b : PyDate) :
    dateLeB a b = true ↔
      (a.year < b.year ∨ (a.year = b.year ∧
        (a.month < b.month ∨ (a.month = b.month ∧ a.day ≤ b.day)))) := by
  unfold dateLeB
  split_ifs <;> simp only [decide_eq_true_eq] <;> omega

instance : IsTotal Row rowLe :=
  ⟨fun a b => by
    simp only [rowLe, dateLeB_iff]
    omega⟩

instance : IsTrans Row rowLe :=
  ⟨fun a b c hab hbc => by
    simp only [rowLe, dateLeB_iff] at *
    omega⟩

/-- C1: whenever the Series Normalizer returns a list (for any raw
response mapping, in any entry order, and any provider function), that
list is sorted ascending by date. -/
theorem parse_close_series_sorted (data : List (String × JVal)) (fn : String)
    (rows : List Row) (h : parse_close_series data fn = .ok rows) :
    List.Sorted rowLe rows := by
  unfold parse_close_series at h
  split at h
  · exact absurd h (by simp)
  split at h
  · exact absurd h (by simp)
  · split at h
    · rename_i rows0 _
      injection h with h2
      rw [← h2]
      exact List.sorted_insertionSort rowLe rows0
    · exact absurd h (by simp)
  · exact absurd h (by simp)

/-- C1 witness: a response listing 2020-01-03 before 2020-01-01 comes
back sorted ascending. -/
theorem parse_close_series_sorted_witness :
    parse_close_series c1Data "TIME_SERIES_DAILY" = .ok c1Rows ∧
    List.Sorted rowLe c1Rows :=
  ⟨by rfl, parse_close_series_sorted c1Data "TIME_SERIES_DAILY" c1Rows (by rfl)⟩

/-- C7: the Range Filter is idempotent: filtering an already-filtered
series again with the same inclusive date range returns the same
series. -/
theorem filter_range_idempotent (rows : List Row) (s e : PyDate) :
    filter_range (filter_range rows s e) s e = filter_range rows s e := by
  simp [filter_range, List.filter_filter]

/-- C10: the normalizer's tolerance for bad closes stops at missing
fields and strings: a close value that is a nested JSON object makes
`float` raise `TypeError`, which `parse_close_series` does not catch, so
the call errors instead of dropping the entry. -/
theorem parse_close_series_raises_on_nested_close :
    parse_close_series c10Data "TIME_SERIES_DAILY" = .error .typeError := rfl

/-- C2 counterexample: a per-day entry whose closing-price field is
present but non-numeric (a JSON array) does not get dropped; it makes
`parse_close_series` raise an uncaught `TypeError`, contradicting the
claim that no missing-or-non-numeric close ever causes a raise. -/
theorem parse_close_series_raises_on_array_close :
    parse_close_series c2BadData "TIME_SERIES_DAILY" = .error .typeError := rfl

/-- The normalizer loop succeeds on any item list whose entries all have
parseable date keys, dict records and tolerated close shapes, returning
exactly the rows of the entries whose close converts. -/
theorem collectRows_ok (items : List (String × JVal))
    (h : items.all entryOKB = true) :
    collectRows items = .ok (items.filterMap rowOf) := by
  induction items with
  | nil => rfl
  | cons kv rest ih =>
    rw [List.all_cons, Bool.and_eq_true] at h
    obtain ⟨hkv, hrest⟩ := h
    obtain ⟨k, v⟩ := kv
    unfold entryOKB at hkv
    rw [Bool.and_eq_true] at hkv
    obtain ⟨hdt, hcl⟩ := hkv
    rw [Option.isSome_iff_exists] at hdt
    obtain ⟨d, hd⟩ := hdt
    unfold collectRows
    simp only at hd
    rw [hd]
    simp only [List.filterMap_cons, rowOf, hd]
    cases v with
    | obj fields =>
      dsimp only at hcl ⊢
      cases hlk : jLookup fields "4. close" with
      | none => rw [ih hrest]
      | some jv =>
        cases jv with
        | null => rw [ih hrest]
        | str s =>
          cases hf : pyFloatOfString s with
          | some f => simp [pyFloatJV, hf, ih hrest]
          | none => simp [pyFloatJV, hf, ih hrest]
        | num q => simp [pyFloatJV, ih hrest]
        | bool b => simp [pyFloatJV, ih hrest]
        | arr es => rw [hlk] at hcl; exact absurd hcl (by simp [closeOKB])
        | obj fs => rw [hlk] at hcl; exact absurd hcl (by simp [closeOKB])
    | null => exact absurd hcl (by simp)
    | bool b => exact absurd hcl (by simp)
    | num q => exact absurd hcl (by simp)
    | str s => exact absurd hcl (by simp)
    | arr es => exact absurd hcl (by simp)

/-- Any entry whose close field is missing, `None`, or a string that
`float` rejects produces no row. -/
theorem rowOf_dropped (kv : String × JVal) (hdrop : closeDroppedB kv = true) :
    rowOf kv = none := by
  obtain ⟨k, v⟩ := kv
  unfold closeDroppedB at hdrop
  unfold rowOf
  cases hs : strptimeYMD k with
  | none =>
    cases v <;> rfl
  | some dd =>
    cases v with
    | obj fields =>
      dsimp only at hdrop ⊢
      cases hlk : jLookup fields "4. close" with
      | none => rfl
      | some jv =>
        rw [hlk] at hdrop
        cases jv with
        | null => rfl
        | str s =>
          dsimp only at hdrop ⊢
          rw [Option.isNone_iff_eq_none] at hdrop
          simp [pyFloatJV, hdrop]
        | num q => exact absurd hdrop (by simp)
        | bool b => exact absurd hdrop (by simp)
        | arr es => exact absurd hdrop (by simp)
        | obj fs => exact absurd hdrop (by simp)
    | null => rfl
    | bool b => rfl
    | num q => rfl
    | str s => rfl
    | arr es => rfl

/-- C2 amended: when the expected top-level key is present and every
per-day record is a dict with a parseable date key whose close field is
absent, `null`, a string, a number or a bool, the normalizer returns
without raising, the output consists exactly of the (date-sorted) rows
of the entries whose close converts, and every entry whose close is
missing, `null`, or a non-numeric string contributes no row at all —
it is excluded silently.  (A present close that is neither string nor
number raises instead; see the counterexample.) -/
theorem parse_close_series_tolerates (data : List (String × JVal))
    (fn key : String) (items : List (String × JVal))
    (hkey : series_key_for fn = .ok key)
    (hdata : jLookup data key = some (.obj items))
    (hitems : items.all entryOKB = true) :
    parse_close_series data fn =
      .ok (List.insertionSort rowLe (items.filterMap rowOf)) ∧
    ∀ kv ∈ items, closeDroppedB kv = true → rowOf kv = none := by
  refine ⟨?_, fun kv _ hdrop => rowOf_dropped kv hdrop⟩
  unfold parse_close_series
  rw [hkey]
  dsimp only
  rw [hdata]
  dsimp only
  rw [collectRows_ok items hitems]

/-- C2 witness: a daily response mixing a good close, a missing close, a
non-numeric close string and a null close normalizes without error, and
the non-numeric entry is excluded. -/
theorem parse_close_series_tolerates_witness :
    (series_key_for "TIME_SERIES_DAILY" = .ok "Time Series (Daily)" ∧
     jLookup c2Data "Time Series (Daily)" = some (.obj c2Items) ∧
     c2Items.all entryOKB = true) ∧
    parse_close_series c2Data "TIME_SERIES_DAILY" =
      .ok (List.insertionSort rowLe (c2Items.filterMap rowOf)) ∧
    rowOf ("2020-01-04", .obj [("4. close", .str "n/a")]) = none :=
  ⟨⟨rfl, rfl, by rfl⟩,
   (parse_close_series_tolerates c2Data "TIME_SERIES_DAILY" "Time Series (Daily)"
     c2Items rfl rfl (by rfl)).1,
   (parse_close_series_tolerates c2Data "TIME_SERIES_DAILY" "Time Series (Daily)"
     c2Items rfl rfl (by rfl)).2 ("2020-01-04", .obj [("4. close", .str "n/a")])
     (by simp [c2Items]) (by rfl)⟩

/-- C6: "DAILY" maps to the provider function "TIME_SERIES_DAILY" and
response key "Time Series (Daily)", with "WEEKLY"/"MONTHLY" analogous,
and any granularity outside the three recognized values makes `main`
fail before the network call is reached. -/
theorem granularity_mapping_spec :
    function_for "DAILY" = .ok "TIME_SERIES_DAILY" ∧
    function_for "WEEKLY" = .ok "TIME_SERIES_WEEKLY" ∧
    function_for "MONTHLY" = .ok "TIME_SERIES_MONTHLY" ∧
    series_key_for "TIME_SERIES_DAILY" = .ok "Time Series (Daily)" ∧
    series_key_for "TIME_SERIES_WEEKLY" = .ok "Weekly Time Series" ∧
    series_key_for "TIME_SERIES_MONTHLY" = .ok "Monthly Time Series" ∧
    ∀ sym ct ts sd ed : String,
      pyUpper ts ∉ (["DAILY", "WEEKLY", "MONTHLY"] : List String) →
      reachesFetch (main_pre_fetch sym ct ts sd ed) = false := by
  refine ⟨rfl, rfl, rfl, rfl, rfl, rfl, ?_⟩
  intro sym ct ts sd ed h
  unfold main_pre_fetch
  dsimp only
  split
  · rfl
  split
  · rfl
  split
  · rfl
  all_goals rfl

/-- C6 witness: an unrecognized granularity ("hourly") never reaches the
fetch stage. -/
theorem granularity_mapping_witness :
    (pyUpper "hourly" ∉ (["DAILY", "WEEKLY", "MONTHLY"] : List String)) ∧
    reachesFetch (main_pre_fetch "IBM" "line" "hourly" "2020-01-01" "2020-02-01")
      = false :=
  ⟨by decide,
   granularity_mapping_spec.2.2.2.2.2.2 "IBM" "line" "hourly" "2020-01-01"
     "2020-02-01" (by decide)⟩

/-- C3: with a positive label budget (`max_labels`; Python raises
`ZeroDivisionError` at 0, which is outside this model): a list of at
most `max_labels` labels is returned unchanged; otherwise the output
has the input's length and, with `step = max 1 (len / max_labels)`,
position `i` keeps its label exactly when `i % step = 0` or `i` is the
last index, all other positions becoming the `None` placeholder; for 100
labels and `max_labels = 12` the step is 8 and exactly the positions
with `i % 8 = 0` together with the last position keep their labels. -/
theorem thin_labels_spec (labels : List (Option String)) (max_labels : Nat)
    (hpos : 0 < max_labels) :
    (labels.length ≤ max_labels → thin_labels labels max_labels = labels) ∧
    (thin_labels labels max_labels).length = labels.length ∧
    (max_labels < labels.length →
      ∀ i : Nat, i < labels.length →
        (thin_labels labels max_labels)[i]? =
          (if i % max 1 (labels.length / max_labels) = 0 ∨ i = labels.length - 1
           then labels[i]? else some none)) ∧
    (labels.length = 100 → max_labels = 12 →
      max 1 (labels.length / max_labels) = 8 ∧
      ∀ i : Nat, i < 100 →
        ((i % 8 = 0 ∨ i = 99) ∧ (thin_labels labels max_labels)[i]? = labels[i]?) ∨
        (¬(i % 8 = 0 ∨ i = 99) ∧ (thin_labels labels max_labels)[i]? = some none)) := by
  have hlen : (thin_labels labels max_labels).length = labels.length := by
    unfold thin_labels
    dsimp only
    split
    · rfl
    · simp [List.length_map, List.enum_length]
  have key : max_labels < labels.length →
      ∀ i : Nat, i < labels.length →
        (thin_labels labels max_labels)[i]? =
          (if i % max 1 (labels.length / max_labels) = 0 ∨ i = labels.length - 1
           then labels[i]? else some none) := by
    intro hlt i hi
    unfold thin_labels
    dsimp only
    rw [if_neg (by omega)]
    rw [List.getElem?_map, List.getElem?_enum, List.getElem?_eq_getElem hi]
    dsimp only [Option.map_some']
    split
    · rfl
    · rfl
  refine ⟨fun h => by unfold thin_labels; dsimp only; rw [if_pos h], hlen, key, ?_⟩
  intro h100 h12
  subst h12
  have hstep : max 1 (labels.length / 12) = 8 := by rw [h100]; decide
  refine ⟨hstep, ?_⟩
  intro i hi
  have hk := key (by omega) i (by omega)
  rw [hstep, h100] at hk
  by_cases hc : i % 8 = 0 ∨ i = 99
  · left
    refine ⟨hc, ?_⟩
    rw [hk, if_pos]
    exact (by omega : i % 8 = 0 ∨ i = 100 - 1)
  · right
    refine ⟨hc, ?_⟩
    rw [hk, if_neg]
    omega

/-- C3 witness: the label thinner applied to 100 labels with the default
budget of 12 keeps the output aligned with the input length. -/
theorem thin_labels_spec_witness :
    0 < 12 ∧
    (thin_labels (List.replicate 100 (some "L")) 12).length =
      (List.replicate 100 (some "L")).length :=
  ⟨by decide, (thin_labels_spec (List.replicate 100 (some "L")) 12 (by decide)).2.1⟩

/-- C9: the Document Assembler is total (the Python `except` clause makes
`wrap_html` return on any input), and: when the vector-image text parses
(to a single image element containing no heading carrying the page
title), the document contains exactly one embedded image node and
exactly one heading whose text is the page title; when parsing fails,
the document instead contains exactly one preformatted block holding the
original text prefixed by the error annotation, and still exactly one
heading with the page title. -/
theorem wrap_html_spec (fromstring : String → Except String XNode)
    (svg_text page_title : String) :
    (∀ n, fromstring svg_text = .ok n →
      countNodes (isTagB "svg") n = 1 →
      countNodes (isH1TitleB page_title) n = 0 →
      countNodes (isTagB "svg") (wrap_html fromstring svg_text page_title) = 1 ∧
      countNodes (isH1TitleB page_title) (wrap_html fromstring svg_text page_title)
        = 1) ∧
    (∀ e, fromstring svg_text = .error e →
      countNodes (isPreTextB ("(SVG embed error: " ++ e ++ ")\n\n" ++ svg_text))
        (wrap_html fromstring svg_text page_title) = 1 ∧
      countNodes (isH1TitleB page_title) (wrap_html fromstring svg_text page_title)
        = 1) := by
  constructor
  · intro n hok h1 h0
    unfold wrap_html
    rw [hok]
    dsimp only
    simp [countNodes, countForest, isTagB, isH1TitleB, h1, h0]
  · intro e herr
    unfold wrap_html
    rw [herr]
    dsimp only
    simp [countNodes, countForest, isTagB, isH1TitleB, isPreTextB]

/-- C9 witness: a parser succeeding with a bare svg element yields one
embedded image and one title heading; a failing parser yields the
annotated preformatted fallback and still one title heading. -/
theorem wrap_html_spec_witness :
    (countNodes (isTagB "svg") (wrap_html fromstringOk "<svg/>" "T") = 1 ∧
     countNodes (isH1TitleB "T") (wrap_html fromstringOk "<svg/>" "T") = 1) ∧
    (countNodes (isPreTextB "(SVG embed error: bad)\n\n<broken")
        (wrap_html fromstringErr "<broken" "T") = 1 ∧
     countNodes (isH1TitleB "T") (wrap_html fromstringErr "<broken" "T") = 1) :=
  ⟨(wrap_html_spec fromstringOk "<svg/>" "T").1 (.elem "svg" [] none []) rfl
      (by simp [countNodes, countForest, isTagB])
      (by simp [countNodes, countForest, isH1TitleB]),
   (wrap_html_spec fromstringErr "<broken" "T").2 "bad" rfl⟩

/-- C5 amended: when both date strings pass `validate_date` and the start
string is lexicographically greater than the end string (the comparison
`main` actually performs; it coincides with chronological order on
canonically zero-padded date strings), the run aborts with the
date-order error before any fetch. -/
theorem main_pre_fetch_string_order_abort (sym ct ts sd ed : String)
    (hsd : validate_date sd = true) (hed : validate_date ed = true)
    (hgt : charsLtB ed.data sd.data = true) :
    main_pre_fetch sym ct ts sd ed = .badDateOrder := by
  unfold main_pre_fetch
  rw [hsd, hed]
  simp [hgt]

/-- C5 witness: the spec's own end-to-end instance: start `2020-01-01`
with end `2019-01-01` aborts with the date-order error. -/
theorem main_pre_fetch_string_order_witness :
    (validate_date "2020-01-01" = true ∧ validate_date "2019-01-01" = true ∧
      charsLtB "2019-01-01".data "2020-01-01".data = true) ∧
    main_pre_fetch "AAPL" "line" "daily" "2020-01-01" "2019-01-01" = .badDateOrder :=
  ⟨⟨by decide, by decide, by decide⟩,
   main_pre_fetch_string_order_abort _ _ _ _ _ (by decide) (by decide) (by decide)⟩

/-- C5 counterexample: both strings pass `validate_date`, the parsed
start date (2020-10-01) is chronologically after the parsed end date
(2020-09-01), yet the string comparison in `main` does not trip and the
run proceeds all the way to the network fetch. -/
theorem main_reaches_fetch_despite_date_order :
    validate_date "2020-10-01" = true ∧ validate_date "2020-9-01" = true ∧
    to_date "2020-10-01" = some ⟨2020, 10, 1⟩ ∧
    to_date "2020-9-01" = some ⟨2020, 9, 1⟩ ∧
    dateLeB ⟨2020, 10, 1⟩ ⟨2020, 9, 1⟩ = false ∧
    main_pre_fetch "IBM" "line" "daily" "2020-10-01" "2020-9-01" =
      .fetch "IBM" "TIME_SERIES_DAILY" := by decide

/-- Digit characters render digits. -/
theorem digitChar_isDigit {k : Nat} (h : k < 10) : (Nat.digitChar k).isDigit = true := by
  interval_cases k <;> decide

/-- Digit characters round-trip through `dval`. -/
theorem dval_digitChar {k : Nat} (h : k < 10) : dval (Nat.digitChar k) = k := by
  interval_cases k <;> decide

/-- No month is longer than 31 days. -/
theorem daysInMonth_le (y m : Nat) : daysInMonth y m ≤ 31 := by
  unfold daysInMonth
  split_ifs <;> omega

/-- C8: every valid `YYYY-MM-DD` string (canonically zero-padded
components denoting a representable calendar date) passes
`validate_date`, and `to_date` parses it back to exactly that
year/month/day triple. -/
theorem validate_and_parse_roundtrip (y m d : Nat)
    (hy1 : 1 ≤ y) (hy2 : y ≤ 9999) (hm1 : 1 ≤ m) (hm2 : m ≤ 12)
    (hd1 : 1 ≤ d) (hd2 : d ≤ daysInMonth y m) :
    validate_date (ymdString y m d) = true ∧
    to_date (ymdString y m d) = some ⟨y, m, d⟩ := by
  have hm10 : ∀ k : Nat, k % 10 < 10 := fun k => Nat.mod_lt _ (by norm_num)
  have key : strptimeYMD (ymdString y m d) = some ⟨y, m, d⟩ := by
    unfold ymdString pad4 pad2 strptimeYMD
    simp only [List.cons_append, List.nil_append]
    simp only [digitChar_isDigit (hm10 _), dval_digitChar (hm10 _), Bool.and_self,
      Bool.true_and, Bool.and_true, if_true]
    have hy : 1000 * (y / 1000 % 10) + 100 * (y / 100 % 10) + 10 * (y / 10 % 10) + y % 10 = y := by
      omega
    rw [hy]
    unfold parseMonthDash
    simp only [digitChar_isDigit (hm10 _), dval_digitChar (hm10 _), Bool.true_and, if_true]
    have hm : 10 * (m / 10 % 10) + m % 10 = m := by omega
    rw [hm, if_pos ⟨hm1, hm2⟩]
    unfold parseDayEnd
    simp only [digitChar_isDigit (hm10 _), dval_digitChar (hm10 _), Bool.and_self, if_true]
    have h31 : d ≤ 31 := le_trans hd2 (daysInMonth_le y m)
    have hd : 10 * (d / 10 % 10) + d % 10 = d := by omega
    rw [hd, if_pos ⟨hd1, h31⟩]
    dsimp only
    rw [if_pos ⟨hy1, hd1, hd2⟩]
  exact ⟨by rw [validate_date, key]; rfl, by rw [to_date, key]⟩

/-- C8 witness: the leap day 2020-02-29 validates and round-trips. -/
theorem validate_and_parse_roundtrip_witness :
    (1 ≤ 2020 ∧ 2020 ≤ 9999 ∧ 1 ≤ 2 ∧ 2 ≤ 12 ∧ 1 ≤ 29 ∧ 29 ≤ daysInMonth 2020 2) ∧
    (validate_date (ymdString 2020 2 29) = true ∧
     to_date (ymdString 2020 2 29) = some ⟨2020, 2, 29⟩) :=
  ⟨⟨by decide, by decide, by decide, by decide, by decide, by decide⟩,
   validate_and_parse_roundtrip 2020 2 29 (by decide) (by decide) (by decide)
     (by decide) (by decide) (by decide)⟩

/-- Code-point bounds of an ASCII digit character. -/
theorem isDigit_toNat {c : Char} (h : c.isDigit = true) :
    48 ≤ c.toNat ∧ c.toNat ≤ 57 := by
  simp only [Char.isDigit, Bool.and_eq_true, decide_eq_true_eq, ge_iff_le] at h
  obtain ⟨h1, h2⟩ := h
  have hb1 : (48 : UInt32).toNat ≤ c.val.toNat := h1
  have hb2 : c.val.toNat ≤ (57 : UInt32).toNat := h2
  have e1 : (48 : UInt32).toNat = 48 := by decide
  have e2 : (57 : UInt32).toNat = 57 := by decide
  exact ⟨by rw [e1] at hb1; exact hb1, by rw [e2] at hb2; exact hb2⟩

/-- A digit character's value is at most 9. -/
theorem dval_le {c : Char} (h : c.isDigit = true) : dval c ≤ 9 := by
  have := isDigit_toNat h
  unfold dval
  omega

/-- Characterization of the month-plus-hyphen parser: it succeeds exactly
on a one-digit month of value at least 1 or a two-digit month of value
1..12, each followed by a hyphen. -/
theorem parseMonthDash_eq_some {l : List Char} {v : Nat} {rest2 : List Char} :
    parseMonthDash l = some (v, rest2) ↔
      ((∃ a, l = a :: '-' :: rest2 ∧ a.isDigit = true ∧ v = dval a ∧ 1 ≤ v) ∨
       (∃ a b, l = a :: b :: '-' :: rest2 ∧ a.isDigit = true ∧ b.isDigit = true ∧
         v = 10 * dval a + dval b ∧ 1 ≤ v ∧ v ≤ 12)) := by
  match l with
  | [] => simp [parseMonthDash]
  | [a] => simp [parseMonthDash]
  | a :: b :: rest =>
    unfold parseMonthDash
    dsimp only
    by_cases ha : a.isDigit = true
    · rw [if_pos ha]
      by_cases hb : b.isDigit = true
      · rw [if_pos hb]
        constructor
        · intro h
          by_cases hv : 1 ≤ 10 * dval a + dval b ∧ 10 * dval a + dval b ≤ 12
          · rw [if_pos hv] at h
            split at h
            · rename_i r2
              injection h with h
              injection h with h1 h2
              right
              exact ⟨a, b, by rw [h2], ha, hb, h1.symm, h1 ▸ hv.1, h1 ▸ hv.2⟩
            · exact absurd h (by simp)
          · rw [if_neg hv] at h
            exact absurd h (by simp)
        · rintro (⟨a2, heq, ha2, hv2, h1⟩ | ⟨a2, b2, heq, ha2, hb2, hv2, h1, h12⟩)
          · injection heq with e1 heq
            injection heq with e2 heq
            rw [e2] at hb
            exact absurd hb (by decide)
          · injection heq with e1 heq
            injection heq with e2 heq
            subst e1
            subst e2
            rw [if_pos (by rw [← hv2]; exact ⟨h1, h12⟩)]
            rw [heq, hv2]
            rfl
      · rw [if_neg hb]
        by_cases hbd : b = '-'
        · subst hbd
          rw [if_pos rfl]
          constructor
          · intro h
            by_cases h1 : 1 ≤ dval a
            · rw [if_pos h1] at h
              injection h with h
              injection h with h1v h2v
              left
              exact ⟨a, by rw [h2v], ha, h1v.symm, h1v ▸ h1⟩
            · rw [if_neg h1] at h
              exact absurd h (by simp)
          · rintro (⟨a2, heq, ha2, hv2, h1⟩ | ⟨a2, b2, heq, ha2, hb2, hv2, h1, h12⟩)
            · injection heq with e1 heq
              injection heq with e2 heq
              subst e1
              rw [if_pos (hv2 ▸ h1), heq, hv2]
            · injection heq with e1 heq
              injection heq with e2 heq
              rw [← e2] at hb2
              exact absurd hb2 (by decide)
        · rw [if_neg hbd]
          constructor
          · intro h
            exact absurd h (by simp)
          · rintro (⟨a2, heq, ha2, hv2, h1⟩ | ⟨a2, b2, heq, ha2, hb2, hv2, h1, h12⟩)
            · injection heq with e1 heq
              injection heq with e2 heq
              exact absurd e2 hbd
            · injection heq with e1 heq
              injection heq with e2 heq
              subst e2
              exact absurd hb2 hb
    · rw [if_neg ha]
      constructor
      · intro h
        exact absurd h (by simp)
      · rintro (⟨a2, heq, ha2, hv2, h1⟩ | ⟨a2, b2, heq, ha2, hb2, hv2, h1, h12⟩)
        · injection heq with e1 heq
          subst e1
          exact absurd ha2 ha
        · injection heq with e1 heq
          subst e1
          exact absurd ha2 ha

/-- Characterization of the trailing day parser: it succeeds exactly on a
one-digit day of value at least 1 or a two-digit day of value 1..31,
consuming the whole remaining input. -/
theorem parseDayEnd_eq_some {l : List Char} {v : Nat} :
    parseDayEnd l = some v ↔
      ((∃ a, l = [a] ∧ a.isDigit = true ∧ v = dval a ∧ 1 ≤ v) ∨
       (∃ a b, l = [a, b] ∧ a.isDigit = true ∧ b.isDigit = true ∧
         v = 10 * dval a + dval b ∧ 1 ≤ v ∧ v ≤ 31)) := by
  match l with
  | [] => simp [parseDayEnd]
  | [a] =>
    unfold parseDayEnd
    dsimp only
    constructor
    · intro h
      split_ifs at h with hc
      · rw [Bool.and_eq_true, decide_eq_true_eq] at hc
        injection h with h
        left
        exact ⟨a, rfl, hc.1, h.symm, h ▸ hc.2⟩
    · rintro (⟨a2, heq, ha2, hv2, h1⟩ | ⟨a2, b2, heq, ha2, hb2, hv2, h1, h12⟩)
      · injection heq with e1
        subst e1
        rw [if_pos (by rw [Bool.and_eq_true, decide_eq_true_eq]; exact ⟨ha2, hv2 ▸ h1⟩)]
        rw [hv2]
      · exact absurd heq (by simp)
  | [a, b] =>
    unfold parseDayEnd
    dsimp only
    constructor
    · intro h
      split_ifs at h with hc hv
      rw [Bool.and_eq_true] at hc
      injection h with h
      right
      exact ⟨a, b, rfl, hc.1, hc.2, h.symm, h ▸ hv.1, h ▸ hv.2⟩
    · rintro (⟨a2, heq, ha2, hv2, h1⟩ | ⟨a2, b2, heq, ha2, hb2, hv2, h1, h12⟩)
      · exact absurd heq (by simp)
      · injection heq with e1 heq
        injection heq with e2
        subst e1
        subst e2
        rw [if_pos (by rw [Bool.and_eq_true]; exact ⟨ha2, hb2⟩)]
        rw [if_pos (by rw [← hv2]; exact ⟨h1, h12⟩), hv2]
  | a :: b :: c :: rest =>
    constructor
    · intro h
      exact absurd h (by simp [parseDayEnd])
    · rintro (⟨a2, heq, ha2, hv2, h1⟩ | ⟨a2, b2, heq, ha2, hb2, hv2, h1, h12⟩)
      · exact absurd heq (by simp)
      · injection heq with e1 heq
        injection heq with e2 heq
        exact absurd heq (by simp)

/-- Value of a one-digit string. -/
theorem digitsToNat_one (a : Char) : digitsToNat [a] = dval a := by
  simp only [digitsToNat, List.foldl_cons, List.foldl_nil]
  omega

/-- Value of a two-digit string. -/
theorem digitsToNat_two (a b : Char) : digitsToNat [a, b] = 10 * dval a + dval b := by
  simp only [digitsToNat, List.foldl_cons, List.foldl_nil]
  omega

/-- Value of a four-digit string. -/
theorem digitsToNat_four (a b c d : Char) :
    digitsToNat [a, b, c, d] = 1000 * dval a + 100 * dval b + 10 * dval c + dval d := by
  simp only [digitsToNat, List.foldl_cons, List.foldl_nil]
  omega

/-- C4 amended: `validate_date` accepts exactly the hyphen-separated
strings with a 4-digit year of value at least 1, a 1-or-2-digit month
valued 1..12, and a 1-or-2-digit day existing in that month: canonical
2-digit months and days as the spec describes, but also their non-padded
1-digit forms, which the spec's "exact format" claim excludes. -/
theorem validate_date_iff (s : String) : validate_date s = true ↔ acceptedYMD s := by
  unfold validate_date acceptedYMD
  rw [Option.isSome_iff_exists]
  constructor
  · rintro ⟨dt, hdt⟩
    unfold strptimeYMD at hdt
    split at hdt
    case _ c1 c2 c3 c4 rest hdata =>
      split_ifs at hdt with hdig
      simp only [Bool.and_eq_true] at hdig
      obtain ⟨⟨⟨h1, h2⟩, h3⟩, h4⟩ := hdig
      cases hpm : parseMonthDash rest with
      | none => rw [hpm] at hdt; exact absurd hdt (by simp)
      | some pr =>
        obtain ⟨m, rest2⟩ := pr
        rw [hpm] at hdt
        dsimp only at hdt
        cases hpd : parseDayEnd rest2 with
        | none => rw [hpd] at hdt; exact absurd hdt (by simp)
        | some d =>
          rw [hpd] at hdt
          dsimp only at hdt
          split_ifs at hdt with hcond
          obtain ⟨hy1, hd1, hdm⟩ := hcond
          rcases parseMonthDash_eq_some.mp hpm with
            ⟨a, hrest, ha, hma, hm1⟩ | ⟨a, b, hrest, ha, hb, hmab, hm1, hm12⟩
          · rcases parseDayEnd_eq_some.mp hpd with
              ⟨e, hr2, he, hde, hdd1⟩ | ⟨e, f, hr2, he, hf, hdef, hdd1, hdd31⟩
            · refine ⟨[c1, c2, c3, c4], [a], [e], ?_, rfl, ?_, ?_, ?_, ?_, ?_, ?_, ?_, ?_, ?_, ?_⟩
              · rw [hdata, hrest, hr2]; rfl
              · simp only [List.forall_mem_cons, List.forall_mem_singleton]
                exact ⟨h1, h2, h3, h4, by simp⟩
              · left; rfl
              · simp only [List.forall_mem_singleton]; exact ha
              · left; rfl
              · simp only [List.forall_mem_singleton]; exact he
              · rw [digitsToNat_four]; exact hy1
              · rw [digitsToNat_one, ← hma]; exact hm1
              · rw [digitsToNat_one]; exact le_trans (dval_le ha) (by norm_num)
              · rw [digitsToNat_one, ← hde]; exact hdd1
              · rw [digitsToNat_one, digitsToNat_one, digitsToNat_four, ← hde, ← hma]
                exact hdm
            · refine ⟨[c1, c2, c3, c4], [a], [e, f], ?_, rfl, ?_, ?_, ?_, ?_, ?_, ?_, ?_, ?_, ?_, ?_⟩
              · rw [hdata, hrest, hr2]; rfl
              · simp only [List.forall_mem_cons, List.forall_mem_singleton]
                exact ⟨h1, h2, h3, h4, by simp⟩
              · left; rfl
              · simp only [List.forall_mem_singleton]; exact ha
              · right; rfl
              · simp only [List.forall_mem_cons, List.forall_mem_singleton]
                exact ⟨he, hf, by simp⟩
              · rw [digitsToNat_four]; exact hy1
              · rw [digitsToNat_one, ← hma]; exact hm1
              · rw [digitsToNat_one]; exact le_trans (dval_le ha) (by norm_num)
              · rw [digitsToNat_two, ← hdef]; exact hdd1
              · rw [digitsToNat_two, digitsToNat_one, digitsToNat_four, ← hdef, ← hma]
                exact hdm
          · rcases parseDayEnd_eq_some.mp hpd with
              ⟨e, hr2, he, hde, hdd1⟩ | ⟨e, f, hr2, he, hf, hdef, hdd1, hdd31⟩
            · refine ⟨[c1, c2, c3, c4], [a, b], [e], ?_, rfl, ?_, ?_, ?_, ?_, ?_, ?_, ?_, ?_, ?_, ?_⟩
              · rw [hdata, hrest, hr2]; rfl
              · simp only [List.forall_mem_cons, List.forall_mem_singleton]
                exact ⟨h1, h2, h3, h4, by simp⟩
              · right; rfl
              · simp only [List.forall_mem_cons, List.forall_mem_singleton]
                exact ⟨ha, hb, by simp⟩
              · left; rfl
              · simp only [List.forall_mem_singleton]; exact he
              · rw [digitsToNat_four]; exact hy1
              · rw [digitsToNat_two, ← hmab]; exact hm1
              · rw [digitsToNat_two, ← hmab]; exact hm12
              · rw [digitsToNat_one, ← hde]; exact hdd1
              · rw [digitsToNat_one, digitsToNat_two, digitsToNat_four, ← hde, ← hmab]
                exact hdm
            · refine ⟨[c1, c2, c3, c4], [a, b], [e, f], ?_, rfl, ?_, ?_, ?_, ?_, ?_, ?_, ?_, ?_, ?_, ?_⟩
              · rw [hdata, hrest, hr2]; rfl
              · simp only [List.forall_mem_cons, List.forall_mem_singleton]
                exact ⟨h1, h2, h3, h4, by simp⟩
              · right; rfl
              · simp only [List.forall_mem_cons, List.forall_mem_singleton]
                exact ⟨ha, hb, by simp⟩
              · right; rfl
              · simp only [List.forall_mem_cons, List.forall_mem_singleton]
                exact ⟨he, hf, by simp⟩
              · rw [digitsToNat_four]; exact hy1
              · rw [digitsToNat_two, ← hmab]; exact hm1
              · rw [digitsToNat_two, ← hmab]; exact hm12
              · rw [digitsToNat_two, ← hdef]; exact hdd1
              · rw [digitsToNat_two, digitsToNat_two, digitsToNat_four, ← hdef, ← hmab]
                exact hdm
    case _ => exact absurd hdt (by simp)
  · rintro ⟨ych, mch, dch, hdata, hy4, hydig, hmlen, hmdig, hdlen, hddig, hy1, hm1, hm12, hd1, hdm⟩
    obtain ⟨c1, c2, c3, c4, rfl⟩ : ∃ a b c d, ych = [a, b, c, d] := by
      rcases ych with _ | ⟨a, _ | ⟨b, _ | ⟨c, _ | ⟨d, _ | ⟨e, t⟩⟩⟩⟩⟩ <;>
        first
          | exact ⟨_, _, _, _, rfl⟩
          | (exfalso
             simp only [List.length_cons, List.length_nil] at hy4
             omega)
    have hc1 : c1.isDigit = true := hydig c1 (by simp)
    have hc2 : c2.isDigit = true := hydig c2 (by simp)
    have hc3 : c3.isDigit = true := hydig c3 (by simp)
    have hc4 : c4.isDigit = true := hydig c4 (by simp)
    refine ⟨⟨digitsToNat [c1, c2, c3, c4], digitsToNat mch, digitsToNat dch⟩, ?_⟩
    unfold strptimeYMD
    rw [hdata]
    simp only [List.cons_append, List.nil_append]
    rw [if_pos (by rw [hc1, hc2, hc3, hc4]; rfl)]
    have hpm : parseMonthDash (mch ++ '-' :: dch) = some (digitsToNat mch, dch) := by
      apply parseMonthDash_eq_some.mpr
      rcases mch with _ | ⟨a, _ | ⟨b, mt⟩⟩
      · simp at hmlen
      · left
        exact ⟨a, rfl, hmdig a (by simp), digitsToNat_one a, hm1⟩
      · rcases mt with _ | ⟨c, mt2⟩
        · right
          exact ⟨a, b, rfl, hmdig a (by simp), hmdig b (by simp),
            digitsToNat_two a b, hm1, hm12⟩
        · rcases hmlen with h | h <;>
            simp only [List.length_cons, List.length_nil] at h <;> omega
    rw [hpm]
    dsimp only
    have hpd : parseDayEnd dch = some (digitsToNat dch) := by
      apply parseDayEnd_eq_some.mpr
      rcases dch with _ | ⟨e, _ | ⟨f, dt2⟩⟩
      · simp at hdlen
      · left
        exact ⟨e, rfl, hddig e (by simp), digitsToNat_one e, hd1⟩
      · rcases dt2 with _ | ⟨g, dt3⟩
        · right
          exact ⟨e, f, rfl, hddig e (by simp), hddig f (by simp),
            digitsToNat_two e f, hd1, le_trans hdm (daysInMonth_le _ _)⟩
        · rcases hdlen with h | h <;>
            simp only [List.length_cons, List.length_nil] at h <;> omega
    rw [hpd]
    dsimp only
    rw [show 1000 * dval c1 + 100 * dval c2 + 10 * dval c3 + dval c4
        = digitsToNat [c1, c2, c3, c4] from (digitsToNat_four c1 c2 c3 c4).symm]
    rw [if_pos ⟨hy1, hd1, hdm⟩]

/-- C4 counterexample: the non-padded string "2020-1-5" has wrong
component widths, so the exact-format description says it must be
rejected, yet `validate_date` accepts it. -/
theorem validate_date_accepts_nonpadded :
    validate_date "2020-1-5" = true ∧ specExactYMDFormat "2020-1-5" = false := by
  decide
